import Mathlib

/-!
# Verification of the Dangbei2Api stream-translation gateway (`src/app.py`)

This file shallowly embeds the core logic of `app.py`:

* `check_authorization`  (app.py lines 195-203)
* `concatenate_messages` (app.py lines 235-241)
* `parse_card_content`   (app.py lines 245-268), together with a model of
  Python's `json.loads` and of the attribute/type errors raised when the
  decoded value does not have the shape the code expects
* `truncate_messages`    (app.py lines 272-303)
* the streaming consumer `stream_response`       (app.py lines 343-407)
* the non-streaming consumer in `chat_completions` (app.py lines 436-473)

Upstream events are modelled at the level of the spec's data model (§3): one
decoded `data:` line with optional string fields `content_type` and
`content`.  Python exceptions that can escape the translated code are made
explicit with `Except`.
-/

namespace Dangbei

/-! ## Python string helpers -/

/-- ASCII whitespace stripped by Python's `str.strip()` (space, tab, newline,
carriage return, vertical tab, form feed).  Non-ASCII Unicode whitespace is
not modelled; no input in this development contains it. -/
def isPyWs (c : Char) : Bool :=
  c = ' ' || c = '\t' || c = '\n' || c = '\r' || c = '\x0b' || c = '\x0c'

/-- Python `str.strip()`. -/
def pyStrip (s : String) : String :=
  ⟨((s.data.dropWhile isPyWs).reverse.dropWhile isPyWs).reverse⟩

/-- Index of the first occurrence of `pat` in `s` (as lists of characters). -/
def findIdx? (pat : List Char) : List Char → Option Nat
  | [] => if pat.isPrefixOf ([] : List Char) then some 0 else none
  | c :: r => if pat.isPrefixOf (c :: r) then some 0 else (findIdx? pat r).map (· + 1)

/-- One `re.sub(open.*?close, "", s, flags=re.DOTALL)` pass, on character
lists.  `re.sub` scans left to right: each match starts at the first
occurrence of the opening tag and, non-greedily, ends at the first occurrence
of the closing tag after it; scanning resumes after the removed span.  If the
first opening tag has no closing tag after it, no later one does either, so
the remainder is kept unchanged. -/
def stripSpansAux (openT closeT : List Char) : Nat → List Char → List Char
  | 0, s => s
  | fuel + 1, s =>
    match findIdx? openT s with
    | none => s
    | some i =>
      let afterOpen := s.drop (i + openT.length)
      match findIdx? closeT afterOpen with
      | none => s
      | some j => s.take i ++ stripSpansAux openT closeT fuel (afterOpen.drop (j + closeT.length))

/-- `re.sub(rf"{openT}.*?{closeT}", "", s, flags=re.DOTALL)` for literal
tags `openT`/`closeT`. -/
def stripTagSpans (openT closeT : String) (s : String) : String :=
  ⟨stripSpansAux openT.data closeT.data (s.length + 1) s.data⟩

/-- `re.sub(r"<think>.*?</think>", "", content, flags=re.DOTALL)`
(app.py line 238). -/
def stripThink (s : String) : String := stripTagSpans "<think>" "</think>" s

/-- `re.sub(r"<details>.*?</details>", "", content, flags=re.DOTALL)`
(app.py lines 373 and 449). -/
def stripDetails (s : String) : String := stripTagSpans "<details>" "</details>" s

/-! ## Messages (app.py lines 207-209) -/

/-- `role: Literal["system", "user", "assistant"]`. -/
inductive Role where
  | system | user | assistant
deriving DecidableEq

/-- Python `str.capitalize()` applied to the three legal role strings. -/
def Role.capitalize : Role → String
  | .system => "System"
  | .user => "User"
  | .assistant => "Assistant"

structure Message where
  role : Role
  content : String
deriving DecidableEq

/-! ## Message flattener `concatenate_messages` (app.py lines 235-241) -/

/-- `concatenate_messages`: the loop builds the list `concatenated` in order
and the result is `"\n".join(concatenated)`. -/
def concatenate_messages (messages : List Message) : String :=
  let concatenated := messages.foldl
    (fun acc msg =>
      let content := pyStrip (stripThink msg.content)
      if content ≠ "" then acc ++ [msg.role.capitalize ++ ": " ++ content] else acc)
    []
  String.intercalate "\n" concatenated

/-- The per-message behaviour described by the spec (§4.2): strip think spans,
trim, skip if nothing remains, otherwise emit one `"Role: content"` line. -/
def flattenLine (msg : Message) : Option String :=
  let content := pyStrip (stripThink msg.content)
  if content = "" then none else some (msg.role.capitalize ++ ": " ++ content)

/-! ## Context truncator `truncate_messages` (app.py lines 272-303) -/

def msgChars (m : Message) : Nat := m.content.length

/-- `sum(len(msg.content) for msg in messages)`. -/
def totalChars (ms : List Message) : Nat := (ms.map msgChars).sum

/-- `msg.role in ["user", "assistant"]`. -/
def isUA (m : Message) : Bool := m.role = Role.user || m.role = Role.assistant

/-- The `for msg in reversed(ua_messages)` loop of `truncate_messages`:
`truncated_ua.insert(0, msg)` while the message still fits, `break`
otherwise. -/
def pickUA (avail : Int) : List Message → Int → List Message → List Message
  | [], _, acc => acc
  | m :: rest, cur, acc =>
    if cur + (msgChars m : Int) ≤ avail then pickUA avail rest (cur + (msgChars m : Int)) (m :: acc)
    else acc

/-- `truncate_messages(messages, max_chars)`. -/
def truncate_messages (messages : List Message) (max_chars : Nat) : List Message :=
  let total_chars := totalChars messages
  if total_chars ≤ max_chars then messages
  else
    let other_messages := messages.filter (fun m => !isUA m)
    let other_chars := totalChars other_messages
    let available_chars : Int := (max_chars : Int) - (other_chars : Int)
    if available_chars ≤ 0 then other_messages
    else
      let ua_messages := messages.filter isUA
      other_messages ++ pickUA available_chars ua_messages.reverse 0 []

/-! ## A model of Python `json` values and `json.loads`

`parse_card_content` starts from `json.loads(content)`; the decoded value is
then traversed with `.get` and `for` loops, which raise `AttributeError` /
`TypeError` when the value does not have the expected shape.  JSON numbers
with a fraction or exponent are kept as their source lexeme (`jflt`); Python
float formatting is approximated by that lexeme and no claim depends on it. -/

inductive Json where
  | jnull
  | jbool (b : Bool)
  | jnum (n : Int)
  | jflt (raw : String)
  | jstr (s : String)
  | jarr (xs : List Json)
  | jobj (kvs : List (String × Json))

/-- JSON whitespace accepted by Python's `json` scanner. -/
def skipWs : List Char → List Char
  | [] => []
  | c :: r => if c = ' ' || c = '\t' || c = '\n' || c = '\r' then skipWs r else c :: r

def hexVal? (c : Char) : Option Nat :=
  if c.isDigit then some (c.toNat - 48)
  else if 'a' ≤ c && c ≤ 'f' then some (c.toNat - 87)
  else if 'A' ≤ c && c ≤ 'F' then some (c.toNat - 55)
  else none

/-- Body of a JSON string after the opening quote; strict mode rejects raw
control characters.  Lone `\uXXXX` escapes become the corresponding scalar
value (surrogate-pair combination is not modelled; no input here uses it). -/
def jparseStringAux : List Char → List Char → Option (String × List Char)
  | acc, '"' :: rest => some (⟨acc.reverse⟩, rest)
  | acc, '\\' :: '"' :: r => jparseStringAux ('"' :: acc) r
  | acc, '\\' :: '\\' :: r => jparseStringAux ('\\' :: acc) r
  | acc, '\\' :: '/' :: r => jparseStringAux ('/' :: acc) r
  | acc, '\\' :: 'b' :: r => jparseStringAux ('\x08' :: acc) r
  | acc, '\\' :: 'f' :: r => jparseStringAux ('\x0c' :: acc) r
  | acc, '\\' :: 'n' :: r => jparseStringAux ('\n' :: acc) r
  | acc, '\\' :: 'r' :: r => jparseStringAux ('\r' :: acc) r
  | acc, '\\' :: 't' :: r => jparseStringAux ('\t' :: acc) r
  | acc, '\\' :: 'u' :: h1 :: h2 :: h3 :: h4 :: r =>
    match hexVal? h1, hexVal? h2, hexVal? h3, hexVal? h4 with
    | some a, some b, some c, some d =>
      jparseStringAux (Char.ofNat (((a * 16 + b) * 16 + c) * 16 + d) :: acc) r
    | _, _, _, _ => none
  | _, '\\' :: _ => none
  | acc, c :: rest => if c.toNat < 32 then none else jparseStringAux (c :: acc) rest
  | _, [] => none

def takeDigits : List Char → List Char × List Char
  | [] => ([], [])
  | c :: r =>
    if c.isDigit then
      let p := takeDigits r
      (c :: p.1, p.2)
    else ([], c :: r)

def digitsToNat (ds : List Char) : Nat := ds.foldl (fun n c => n * 10 + (c.toNat - 48)) 0

/-- JSON number: `-? int frac? exp?`; a fraction or exponent makes it a float
(`jflt` keeps the lexeme), otherwise it is a Python `int`. -/
def jparseNumber (s : List Char) : Option (Json × List Char) :=
  let sign : List Char × List Char := match s with | '-' :: r => (['-'], r) | _ => ([], s)
  match sign.2 with
  | [] => none
  | c :: r =>
    if !c.isDigit then none
    else
      let ip : List Char × List Char := if c = '0' then (['0'], r) else takeDigits sign.2
      let frac : List Char × List Char :=
        match ip.2 with
        | '.' :: d :: fr =>
          if d.isDigit then
            let p := takeDigits (d :: fr)
            ('.' :: p.1, p.2)
          else ([], ip.2)
        | _ => ([], ip.2)
      let fempty := frac.1.isEmpty
      let exp : List Char × List Char :=
        match frac.2 with
        | e :: rest =>
          if e = 'e' || e = 'E' then
            let sgn : List Char × List Char :=
              match rest with
              | '+' :: r2 => (['+'], r2)
              | '-' :: r2 => (['-'], r2)
              | _ => ([], rest)
            match sgn.2 with
            | d :: _ =>
              if d.isDigit then
                let p := takeDigits sgn.2
                (e :: sgn.1 ++ p.1, p.2)
              else ([], frac.2)
            | [] => ([], frac.2)
          else ([], frac.2)
        | [] => ([], frac.2)
      if fempty && exp.1.isEmpty then
        let n : Int := (digitsToNat ip.1 : Int)
        some (Json.jnum (if sign.1.isEmpty then n else -n), ip.2)
      else some (Json.jflt ⟨sign.1 ++ ip.1 ++ frac.1 ++ exp.1⟩, exp.2)

mutual

/-- One JSON value at the head of `s` (whitespace already skipped). -/
def jparseVal : Nat → List Char → Option (Json × List Char)
  | 0, _ => none
  | fuel + 1, s =>
    match s with
    | '{' :: r =>
      (jparseMembers fuel (skipWs r) []).map (fun p => (Json.jobj p.1.reverse, p.2))
    | '[' :: r =>
      (jparseItems fuel (skipWs r) []).map (fun p => (Json.jarr p.1.reverse, p.2))
    | '"' :: r => (jparseStringAux [] r).map (fun p => (Json.jstr p.1, p.2))
    | 't' :: 'r' :: 'u' :: 'e' :: r => some (Json.jbool true, r)
    | 'f' :: 'a' :: 'l' :: 's' :: 'e' :: r => some (Json.jbool false, r)
    | 'n' :: 'u' :: 'l' :: 'l' :: r => some (Json.jnull, r)
    | 'N' :: 'a' :: 'N' :: r => some (Json.jflt "nan", r)
    | 'I' :: 'n' :: 'f' :: 'i' :: 'n' :: 'i' :: 't' :: 'y' :: r => some (Json.jflt "inf", r)
    | '-' :: 'I' :: 'n' :: 'f' :: 'i' :: 'n' :: 'i' :: 't' :: 'y' :: r => some (Json.jflt "-inf", r)
    | _ => jparseNumber s

/-- Object members after `{` (whitespace skipped); `}` is accepted only
before the first member, so trailing commas are rejected. -/
def jparseMembers : Nat → List Char → List (String × Json) →
    Option (List (String × Json) × List Char)
  | _, '}' :: r, acc => if acc.isEmpty then some (acc, r) else none
  | 0, _, _ => none
  | fuel + 1, '"' :: r, acc =>
    match jparseStringAux [] r with
    | none => none
    | some (k, r1) =>
      match skipWs r1 with
      | ':' :: r2 =>
        match jparseVal fuel (skipWs r2) with
        | none => none
        | some (v, r3) =>
          match skipWs r3 with
          | ',' :: r4 => jparseMembers fuel (skipWs r4) ((k, v) :: acc)
          | '}' :: r4 => some ((k, v) :: acc, r4)
          | _ => none
      | _ => none
  | _, _, _ => none

/-- Array items after `[` (whitespace skipped); `]` is accepted only before
the first item. -/
def jparseItems : Nat → List Char → List Json → Option (List Json × List Char)
  | _, ']' :: r, acc => if acc.isEmpty then some (acc, r) else none
  | 0, _, _ => none
  | fuel + 1, s, acc =>
    match jparseVal fuel s with
    | none => none
    | some (v, r1) =>
      match skipWs r1 with
      | ',' :: r2 => jparseItems fuel (skipWs r2) (v :: acc)
      | ']' :: r2 => some (v :: acc, r2)
      | _ => none

end

/-- `json.loads` on a string: one value, with only whitespace around it.
Returns `none` where Python raises `json.JSONDecodeError`. -/
def json_loads (s : String) : Option Json :=
  match jparseVal (s.length + 1) (skipWs s.data) with
  | some (v, rest) => if skipWs rest = [] then some v else none
  | none => none

/-! ## Python attribute access and iteration on decoded JSON values -/

/-- Exceptions the translated code can raise. -/
inductive PyErr where
  | jsonDecodeError
  | attributeError
  | typeError
deriving DecidableEq

/-- Python `x == lit` for a string literal `lit`: true exactly when `x` is
that string (`None == lit` and `5 == lit` are `False`, not errors). -/
def jsonEqStr (v : Option Json) (lit : String) : Bool :=
  match v with
  | some (Json.jstr t) => t == lit
  | _ => false

/-- `dict.get(k)`: with duplicate keys Python keeps the last occurrence. -/
def pyDictGet (kvs : List (String × Json)) (k : String) : Option Json :=
  (kvs.reverse.find? (fun p => p.1 == k)).map (·.2)

/-- `v.get(k)` — `AttributeError` when `v` is not a `dict`. -/
def jsonGet (v : Json) (k : String) : Except PyErr (Option Json) :=
  match v with
  | .jobj kvs => .ok (pyDictGet kvs k)
  | _ => .error .attributeError

/-- `v.get(k, d)`. -/
def jsonGetD (v : Json) (k : String) (d : Json) : Except PyErr Json :=
  (jsonGet v k).map (·.getD d)

/-- `for x in v`: lists yield their items, strings their characters, dicts
their keys (first-insertion order with duplicate keys is approximated by the
stored order); other values raise `TypeError`. -/
def pyIter (v : Json) : Except PyErr (List Json) :=
  match v with
  | .jarr xs => .ok xs
  | .jstr s => .ok (s.data.map (fun c => Json.jstr ⟨[c]⟩))
  | .jobj kvs => .ok (kvs.map (fun p => Json.jstr p.1))
  | _ => .error .typeError

mutual

/-- Python `repr` of a decoded JSON value (quote escaping inside nested
reprs is not modelled; no claim evaluates it). -/
def pyRepr : Json → String
  | .jnull => "None"
  | .jbool true => "True"
  | .jbool false => "False"
  | .jnum n => toString n
  | .jflt raw => raw
  | .jstr s => "'" ++ s ++ "'"
  | .jarr xs => "[" ++ pyReprList xs ++ "]"
  | .jobj kvs => "\x7b" ++ pyReprMembers kvs ++ "\x7d"

def pyReprList : List Json → String
  | [] => ""
  | [x] => pyRepr x
  | x :: y :: r => pyRepr x ++ ", " ++ pyReprList (y :: r)

def pyReprMembers : List (String × Json) → String
  | [] => ""
  | [(k, v)] => "'" ++ k ++ "': " ++ pyRepr v
  | (k, v) :: p :: r => "'" ++ k ++ "': " ++ pyRepr v ++ ", " ++ pyReprMembers (p :: r)

end

/-- Python `str()` of a decoded JSON value, as used by the f-string building
a table row. -/
def pyStr : Json → String
  | .jstr s => s
  | v => pyRepr v

/-! ## Card renderer `parse_card_content` (app.py lines 245-268) -/

/-- The `for source in sources` loop: four `.get(..., "")` lookups and one
table row per source. -/
def sourceRows : List Json → Except PyErr (List String)
  | [] => .ok []
  | source :: rest => do
    let id_index ← jsonGetD source "idIndex" (Json.jstr "")
    let name ← jsonGetD source "name" (Json.jstr "")
    let url ← jsonGetD source "url" (Json.jstr "")
    let site_name ← jsonGetD source "siteName" (Json.jstr "")
    let row := "| " ++ pyStr id_index ++ " | [" ++ pyStr name ++ "](" ++ pyStr url ++ ") | "
      ++ pyStr site_name ++ " |"
    let more ← sourceRows rest
    .ok (row :: more)

/-- The `for item in card_info.get("cardItems", [])` loop: items of type
`"2002"` contribute the rows of their decoded `content`. -/
def itemRows : List Json → Except PyErr (List String)
  | [] => .ok []
  | item :: rest => do
    let ty ← jsonGet item "type"
    let rows ←
      if jsonEqStr ty "2002" then do
        let contentVal ← jsonGetD item "content" (Json.jstr "[]")
        let contentStr ←
          match contentVal with
          | Json.jstr s => Except.ok s
          | _ => Except.error PyErr.typeError
        let sources ←
          match json_loads contentStr with
          | none => Except.error PyErr.jsonDecodeError
          | some v => Except.ok v
        let sourceList ← pyIter sources
        sourceRows sourceList
      else pure []
    let more ← itemRows rest
    .ok (rows ++ more)

/-- The body of the `try:` block of `parse_card_content`. -/
def parseCardBody (content : String) : Except PyErr String := do
  let card_data ←
    match json_loads content with
    | none => Except.error PyErr.jsonDecodeError
    | some v => Except.ok v
  let ct ← jsonGet card_data "cardType"
  if jsonEqStr ct "DB-CARD-2" then do
    let card_info ← jsonGetD card_data "cardInfo" (Json.jobj [])
    let items ← jsonGetD card_info "cardItems" (Json.jarr [])
    let itemList ← pyIter items
    let references ← itemRows itemList
    if references ≠ [] then
      pure ("\n\n| 序号 | 网站URL | 来源 |\n| ---- | ---- | ---- |" ++ "\n"
        ++ String.intercalate "\n" references)
    else pure "无法解析的新闻内容"
  else pure "不支持的 card 类型"

/-- `parse_card_content`: only `json.JSONDecodeError` is caught by the
`except` clause; `AttributeError` / `TypeError` escape the function. -/
def parse_card_content (content : String) : Except PyErr String :=
  match parseCardBody content with
  | .error .jsonDecodeError => .ok "无法解析的新闻内容"
  | .error e => .error e
  | .ok r => .ok r

/-! ## Model catalog (app.py lines 72-115) -/

/-- `supported_models`. -/
def supported_models : List String :=
  ["deepseek-r1", "deepseek-r1-search",
   "deepseek-v3", "deepseek-v3-search",
   "doubao", "doubao-search",
   "doubao-thinking", "doubao-thinking-search",
   "qwen-plus", "qwen-plus-search",
   "qwq-plus", "qwq-plus-search",
   "qwen-long", "qwen-long-search",
   "moonshot-v1-32k", "moonshot-v1-32k-search",
   "ernie-4.5-turbo-32k", "ernie-4.5-turbo-32k-search"]

/-- `model_to_user_action`: public name ↦ (backend `model`, `user_action`). -/
def model_to_user_action : List (String × String × List String) :=
  [("deepseek-r1", "deepseek", ["deep"]),
   ("deepseek-r1-search", "deepseek", ["deep", "online"]),
   ("deepseek-v3", "deepseek", []),
   ("deepseek-v3-search", "deepseek", ["online"]),
   ("doubao", "doubao", []),
   ("doubao-search", "doubao", ["online"]),
   ("doubao-thinking", "doubao-thinking", ["deep"]),
   ("doubao-thinking-search", "doubao-thinking", ["deep", "online"]),
   ("qwen", "qwen", []),
   ("qwen-search", "qwen", ["online"]),
   ("qwen-plus", "qwen-plus", []),
   ("qwen-plus-search", "qwen-plus", ["online"]),
   ("qwq-plus", "qwq-plus", ["deep"]),
   ("qwq-plus-search", "qwq-plus", ["deep", "search"]),
   ("qwen-long", "qwen-long", []),
   ("qwen-long-search", "qwen-long", ["online"]),
   ("moonshot-v1-32k", "moonshot", []),
   ("moonshot-v1-32k-search", "moonshot", ["online"]),
   ("ernie-4.5-turbo-32k", "ernie-4.5-turbo", []),
   ("ernie-4.5-turbo-32k-search", "ernie-4.5-turbo", ["online"])]

/-- `model_to_user_action[m]['user_action']` (empty when absent, as in
`model_to_user_action.get(request.model, {}).get('user_action', [])`). -/
def userActionOf (m : String) : List String :=
  match model_to_user_action.find? (fun e => e.1 == m) with
  | some e => e.2.2
  | none => []

/-- The catalog capability the spec calls "deep-reasoning": `"deep"` occurs
in the model's `user_action` list. -/
def hasDeepAction (m : String) : Bool := (userActionOf m).contains "deep"

/-- `request.model in ["deepseek-r1", "deepseek-r1-search"]`
(app.py lines 357 and 430). -/
def is_r1_model (m : String) : Bool :=
  ["deepseek-r1", "deepseek-r1-search"].contains m

/-! ## Authorization check `check_authorization` (app.py lines 195-203) -/

/-- Python `authorization.replace("Bearer ", "")`: every non-overlapping
occurrence of `"Bearer "` is removed, scanning left to right. -/
def removeBearer : List Char → List Char
  | 'B' :: 'e' :: 'a' :: 'r' :: 'e' :: 'r' :: ' ' :: rest => removeBearer rest
  | c :: rest => c :: removeBearer rest
  | [] => []

def pyReplaceBearer (s : String) : String := ⟨removeBearer s.data⟩

/-- Python `s.startswith(pre)`. -/
def pyStartsWith (s pre : String) : Bool := pre.data.isPrefixOf s.data

/-- `api_key = authorization.replace("Bearer ", "") if
authorization.startswith("Bearer ") else authorization` (app.py line 199). -/
def derivedKey (a : String) : String :=
  if pyStartsWith a "Bearer " then pyReplaceBearer a else a

/-- `check_authorization`: the `Authorization` header is `none` when absent
(`APIKeyHeader(auto_error=False)`); `API_KEY` is the configured key.  The
result is `401` (`HTTPException`) or `True`. -/
def check_authorization (authorization : Option String) (API_KEY : String) :
    Except Nat Bool :=
  match authorization with
  | none => .error 401
  | some a =>
    if a = "" then .error 401
    else if derivedKey a ≠ API_KEY then .error 401 else .ok true

/-! ## Upstream events and segmenter state (spec §3; app.py lines 354-357,
427-430)

An upstream event is one decoded `data:` line, with the optional string
fields `content_type` and `content` read by the consumers.  Malformed lines
(`json.JSONDecodeError` on the line itself) are skipped by both consumers
and are not part of the event sequence. -/

structure UpstreamEvent where
  content_type : Option String
  content : Option String
deriving DecidableEq

/-- `thinking` flag and `card_content` pending slot, reset per request. -/
structure SegState where
  thinking : Bool
  card_content : Option String
deriving DecidableEq

def initSeg : SegState := ⟨false, none⟩

/-- One normalized output fragment of the streaming consumer, tagged by the
program point that emitted it (each constructor corresponds to exactly one
`yield generate_chunk(...)` site of `stream_response`). -/
inductive TFrag where
  | openThink
  | closeThink
  | thinkText (s : String)
  | plainText (s : String)
  | cardInline (s : String)
  | cardFlush (s : String)
  | stopMark
deriving DecidableEq

/-- The string the fragment contributes to `content_parts` (the stop marker
carries no text and is never appended to `content_parts`). -/
def fragText : TFrag → String
  | .openThink => "<think>"
  | .closeThink => "</think>"
  | .thinkText s => s
  | .plainText s => s
  | .cardInline s => s
  | .cardFlush s => s
  | .stopMark => ""

/-- The `delta` / `finish_reason` content of one emitted SSE chunk. -/
structure Chunk where
  role : Option String
  content : Option String
  finish_reason : Option String
deriving DecidableEq

def roleChunk : Chunk := ⟨some "assistant", none, none⟩

def contentChunk (s : String) : Chunk := ⟨none, some s, none⟩

def stopChunk : Chunk := ⟨none, none, some "stop"⟩

/-- The single chunk yielded when the upstream chat call is not `200`
(app.py lines 361-365): it carries both the error text and the stop mark. -/
def streamErrChunk (status : Nat) : Chunk :=
  ⟨none, some ("错误：无法获取响应，状态码: " ++ toString status), some "stop"⟩

def fragChunk : TFrag → Chunk
  | .openThink => contentChunk "<think>"
  | .closeThink => contentChunk "</think>"
  | .thinkText s => contentChunk s
  | .plainText s => contentChunk s
  | .cardInline s => contentChunk s
  | .cardFlush s => contentChunk s
  | .stopMark => stopChunk

/-! ## Streaming consumer (app.py lines 343-407) -/

/-- The body of `async for line in response.aiter_lines()` of
`stream_response` (lines 370-395), for one decoded event: falsy (absent or
empty) content is skipped first, then `<details>` spans are stripped, then
the `content_type` is dispatched.  `AttributeError`/`TypeError` escaping
`parse_card_content` abort the generator. -/
def streamStep (is_r1 : Bool) (st : SegState) (ev : UpstreamEvent) :
    Except PyErr (SegState × List TFrag) :=
  let content := ev.content.getD ""
  if content = "" then .ok (st, [])
  else
    let content := stripDetails content
    if ev.content_type = some "thinking" then
      if !st.thinking then .ok ({ st with thinking := true }, [.openThink, .thinkText content])
      else .ok (st, [.thinkText content])
    else if ev.content_type = some "text" then
      if st.thinking then .ok ({ st with thinking := false }, [.closeThink, .plainText content])
      else .ok (st, [.plainText content])
    else if ev.content_type = some "card" then
      match parse_card_content content with
      | .error e => .error e
      | .ok parsed =>
        if is_r1 then .ok ({ st with card_content := some parsed }, [])
        else .ok (st, [.cardInline (parsed ++ "\n\n")])
    else .ok (st, [])

/-- The event loop of `stream_response`: fragments emitted so far, final
state, and the uncaught exception if one aborted the generator. -/
def streamLoop (is_r1 : Bool) : SegState → List UpstreamEvent →
    List TFrag × SegState × Option PyErr
  | st, [] => ([], st, none)
  | st, ev :: rest =>
    match streamStep is_r1 st ev with
    | .error e => ([], st, some e)
    | .ok (st', fs) =>
      let r := streamLoop is_r1 st' rest
      (fs ++ r.1, r.2)

/-- Python truthiness of the `card_content` slot (`if ... and card_content:`):
`None` and the empty string are falsy. -/
def cardTruthy : Option String → Bool
  | some c => c != ""
  | none => false

/-- End-of-stream finalization of `stream_response` (lines 399-405): close a
dangling think span, flush a truthy pending card, then the stop chunk. -/
def streamFinalize (is_r1 : Bool) (st : SegState) : List TFrag :=
  (if st.thinking then [TFrag.closeThink] else []) ++
  (if is_r1 && cardTruthy st.card_content then
     [TFrag.cardFlush ((st.card_content.getD "") ++ "\n\n")]
   else []) ++
  [TFrag.stopMark]

/-- The tagged fragment sequence produced by the streaming consumer for an
accepted (HTTP 200) upstream stream, with the uncaught exception if one
aborted it before finalization. -/
def segmenter_frags (is_r1 : Bool) (evs : List UpstreamEvent) :
    List TFrag × Option PyErr :=
  let r := streamLoop is_r1 initSeg evs
  match r.2.2 with
  | some e => (r.1, some e)
  | none => (r.1 ++ streamFinalize is_r1 r.2.1, none)

/-- `stream_response` as the sequence of yielded chunks: the initial
role-delta chunk (line 353), then, for a non-200 upstream status, the single
error/stop chunk — no event is read — otherwise the chunks of the event
loop and of finalization.  The second component is the exception that
aborted the generator, if any. -/
def stream_response (model : String) (status : Nat) (evs : List UpstreamEvent) :
    List Chunk × Option PyErr :=
  let is_r1 := is_r1_model model
  if status ≠ 200 then ([roleChunk, streamErrChunk status], none)
  else
    let r := segmenter_frags is_r1 evs
    (roleChunk :: r.1.map fragChunk, r.2)

/-! ## Non-streaming consumer (app.py lines 436-484) -/

/-- The body of the event loop of `chat_completions` (lines 446-465): same
dispatch as the streaming consumer, but the emitted strings are only
accumulated into `content_parts`. -/
def nsStep (is_r1 : Bool) (st : SegState) (ev : UpstreamEvent) :
    Except PyErr (SegState × List String) :=
  let content := ev.content.getD ""
  if content = "" then .ok (st, [])
  else
    let content := stripDetails content
    if ev.content_type = some "thinking" then
      if !st.thinking then .ok ({ st with thinking := true }, ["<think>", content])
      else .ok (st, [content])
    else if ev.content_type = some "text" then
      if st.thinking then .ok ({ st with thinking := false }, ["</think>", content])
      else .ok (st, [content])
    else if ev.content_type = some "card" then
      match parse_card_content content with
      | .error e => .error e
      | .ok parsed =>
        if is_r1 then .ok ({ st with card_content := some parsed }, [])
        else .ok (st, [parsed ++ "\n\n"])
    else .ok (st, [])

/-- The event loop of `chat_completions`. -/
def nsLoop (is_r1 : Bool) : SegState → List UpstreamEvent →
    List String × SegState × Option PyErr
  | st, [] => ([], st, none)
  | st, ev :: rest =>
    match nsStep is_r1 st ev with
    | .error e => ([], st, some e)
    | .ok (st', parts) =>
      let r := nsLoop is_r1 st' rest
      (parts ++ r.1, r.2)

/-- Finalization of `chat_completions` (lines 469-472): no stop marker is
appended to the text. -/
def nsFinalize (is_r1 : Bool) (st : SegState) : List String :=
  (if st.thinking then ["</think>"] else []) ++
  (if is_r1 && cardTruthy st.card_content then [(st.card_content.getD "") ++ "\n\n"]
   else [])

/-- Failures of the non-streaming endpoint. -/
inductive NSErr where
  | httpException (status : Nat) (detail : String)
  | uncaught (e : PyErr)
deriving DecidableEq

/-- The final `content` string assembled by `chat_completions` for a
non-streaming request: HTTP 500 for a non-200 upstream status (no event is
read, no partial body), an uncaught exception if one escaped the loop,
otherwise `"".join(content_parts)`. -/
def chat_completions_content (model : String) (status : Nat)
    (evs : List UpstreamEvent) : Except NSErr String :=
  let is_r1 := is_r1_model model
  if status ≠ 200 then
    .error (.httpException 500 ("无法从 API 获取响应，状态码: " ++ toString status))
  else
    let r := nsLoop is_r1 initSeg evs
    match r.2.2 with
    | some e => .error (.uncaught e)
    | none => .ok (String.join (r.1 ++ nsFinalize is_r1 r.2.1))

/-! ## C6 — the context truncator -/

theorem totalChars_cons (m : Message) (l : List Message) :
    totalChars (m :: l) = msgChars m + totalChars l := by
  simp [totalChars]

theorem totalChars_append (l₁ l₂ : List Message) :
    totalChars (l₁ ++ l₂) = totalChars l₁ + totalChars l₂ := by
  simp [totalChars]

/-- The retained-suffix loop keeps its running character total within the
budget. -/
theorem pickUA_sum (avail : Int) : ∀ (rev : List Message) (cur : Int)
    (acc : List Message), (totalChars acc : Int) = cur → cur ≤ avail →
    (totalChars (pickUA avail rev cur acc) : Int) ≤ avail := by
  intro rev
  induction rev with
  | nil =>
    intro cur acc h1 h2
    rw [pickUA, h1]
    exact h2
  | cons m rest ih =>
    intro cur acc h1 h2
    rw [pickUA]
    by_cases hf : cur + (msgChars m : Int) ≤ avail
    · rw [if_pos hf]
      refine ih _ _ ?_ hf
      rw [totalChars_cons]
      push_cast
      omega
    · rw [if_neg hf, h1]
      exact h2

/-- The retained-suffix loop returns a reversed prefix of the walked
(reversed) list, prepended to the accumulator: the `break` makes it stop at
the first message that does not fit. -/
theorem pickUA_shape (avail : Int) : ∀ (rev : List Message) (cur : Int)
    (acc : List Message),
    ∃ k, k ≤ rev.length ∧ pickUA avail rev cur acc = (rev.take k).reverse ++ acc := by
  intro rev
  induction rev with
  | nil =>
    intro cur acc
    exact ⟨0, Nat.le_refl 0, by rw [pickUA]; rfl⟩
  | cons m rest ih =>
    intro cur acc
    by_cases hf : cur + (msgChars m : Int) ≤ avail
    · obtain ⟨k, hk, he⟩ := ih (cur + (msgChars m : Int)) (m :: acc)
      refine ⟨k + 1, by simpa using Nat.succ_le_succ hk, ?_⟩
      rw [pickUA, if_pos hf, he]
      simp [List.append_assoc]
    · exact ⟨0, Nat.zero_le _, by rw [pickUA, if_neg hf]; rfl⟩

theorem rev_take_rev (l : List Message) (k : Nat) :
    (l.reverse.take k).reverse = l.drop (l.length - k) := by
  rw [List.reverse_take, List.length_reverse, List.reverse_reverse]

/-- **C6**: under budget the truncator is the identity; over budget the
result is all preserved-role messages in order followed by a contiguous
trailing suffix of the user/assistant subsequence; if the preserved messages
alone exceed the budget, exactly they are returned; otherwise the result's
total character count is within the budget. -/
theorem c6_truncate (messages : List Message) (max_chars : Nat) :
    (totalChars messages ≤ max_chars →
       truncate_messages messages max_chars = messages) ∧
    (max_chars < totalChars messages →
       ∃ k, truncate_messages messages max_chars
            = messages.filter (fun m => !isUA m) ++ (messages.filter isUA).drop k ∧
          (max_chars < totalChars (messages.filter (fun m => !isUA m)) →
             truncate_messages messages max_chars
               = messages.filter (fun m => !isUA m)) ∧
          (totalChars (messages.filter (fun m => !isUA m)) ≤ max_chars →
             totalChars (truncate_messages messages max_chars) ≤ max_chars)) := by
  constructor
  · intro h
    unfold truncate_messages
    dsimp only
    rw [if_pos h]
  · intro h
    unfold truncate_messages
    dsimp only
    rw [if_neg (by omega)]
    by_cases ho : ((max_chars : Int) - (totalChars (messages.filter (fun m => !isUA m)) : Int)) ≤ 0
    · rw [if_pos ho]
      refine ⟨(messages.filter isUA).length, ?_, fun _ => rfl, fun hle => ?_⟩
      · rw [List.drop_length, List.append_nil]
      · exact hle
    · rw [if_neg ho]
      obtain ⟨k, hk, hshape⟩ :=
        pickUA_shape ((max_chars : Int) - (totalChars (messages.filter (fun m => !isUA m)) : Int))
          (messages.filter isUA).reverse 0 []
      rw [hshape, List.append_nil]
      refine ⟨(messages.filter isUA).length - k, ?_, fun hgt => absurd hgt (by omega), fun hle => ?_⟩
      · rw [rev_take_rev]
      · have hsum := pickUA_sum
          ((max_chars : Int) - (totalChars (messages.filter (fun m => !isUA m)) : Int))
          (messages.filter isUA).reverse 0 [] (by simp [totalChars]) (by omega)
        rw [hshape, List.append_nil] at hsum
        rw [totalChars_append]
        omega

/-- Witness for C6: a concrete over-budget sequence is truncated to within
the budget. -/
theorem c6_truncate_witness :
    totalChars (truncate_messages
        [⟨Role.system, "ab"⟩, ⟨Role.user, "cde"⟩, ⟨Role.user, "fg"⟩] 4) ≤ 4 := by
  obtain ⟨-, h2⟩ :=
    c6_truncate [⟨Role.system, "ab"⟩, ⟨Role.user, "cde"⟩, ⟨Role.user, "fg"⟩] 4
  obtain ⟨k, -, -, hb⟩ := h2 (by decide)
  exact hb (by decide)

end Dangbei

deriving instance DecidableEq for Except

namespace Dangbei

/-! ## C3 — the card renderer can raise past its boundary -/

/-- **C3** (code bug): `parse_card_content` is claimed to return a string and
never raise for *every* input string.  On valid JSON whose decoded value is
not an object — `"[]"`, `"123"` — `card_data.get("cardType")` raises
`AttributeError`, which the `except json.JSONDecodeError` clause does not
catch, so the exception escapes the renderer; the same happens when
`cardItems` contains a non-object entry.  Non-JSON input is handled. -/
theorem c3_card_renderer_raises_on_non_object_json :
    parse_card_content "[]" = .error PyErr.attributeError ∧
    parse_card_content "123" = .error PyErr.attributeError ∧
    parse_card_content
        "\x7b\"cardType\":\"DB-CARD-2\",\"cardInfo\":\x7b\"cardItems\":[5]\x7d\x7d"
      = .error PyErr.attributeError ∧
    parse_card_content "" = .ok "无法解析的新闻内容" ∧
    parse_card_content "not json" = .ok "无法解析的新闻内容" := by
  refine ⟨rfl, rfl, rfl, rfl, rfl⟩

/-! ## C9 — authorization check -/

/-- **C9** is false as stated: `authorization.replace("Bearer ", "")` removes
*every* occurrence of `"Bearer "`, so the header `"Bearer Bearer k"` is
accepted for the key `"k"` although it is neither the bare key nor
`"Bearer " + key`. -/
theorem c9_counterexample :
    check_authorization (some "Bearer Bearer k") "k" = .ok true ∧
    "Bearer Bearer k" ≠ "k" ∧
    "Bearer Bearer k" ≠ "Bearer " ++ "k" := by
  refine ⟨rfl, by decide, by decide⟩

/-- **C9** (amended): the check succeeds iff the header is non-empty and
either does not start with `"Bearer "` and equals the key exactly, or starts
with `"Bearer "` and equals the key after removing every occurrence of the
substring `"Bearer "`.  A missing header is rejected with 401, and every
non-accepted header is rejected with 401. -/
theorem c9_auth_amended (a API_KEY : String) :
    check_authorization none API_KEY = .error 401 ∧
    (check_authorization (some a) API_KEY = .ok true ↔
      (a ≠ "" ∧ ((pyStartsWith a "Bearer " = false ∧ a = API_KEY) ∨
                 (pyStartsWith a "Bearer " = true ∧ pyReplaceBearer a = API_KEY)))) ∧
    (check_authorization (some a) API_KEY = .ok true ∨
     check_authorization (some a) API_KEY = .error 401) := by
  have hkey : ∀ k : String,
      derivedKey a = k ↔
        ((pyStartsWith a "Bearer " = false ∧ a = k) ∨
         (pyStartsWith a "Bearer " = true ∧ pyReplaceBearer a = k)) := by
    intro k
    unfold derivedKey
    cases hb : pyStartsWith a "Bearer " <;> simp [hb]
  refine ⟨rfl, ?_, ?_⟩
  · simp only [check_authorization]
    by_cases he : a = ""
    · subst he
      simp only [if_pos rfl]
      constructor
      · intro h; exact absurd h (by simp)
      · rintro ⟨h, -⟩; exact absurd rfl h
    · rw [if_neg he]
      by_cases hk : derivedKey a ≠ API_KEY
      · rw [if_pos hk]
        constructor
        · intro h; exact absurd h (by simp)
        · rintro ⟨-, hr⟩; exact absurd ((hkey API_KEY).mpr hr) hk
      · rw [if_neg hk]
        push_neg at hk
        exact ⟨fun _ => ⟨he, (hkey API_KEY).mp hk⟩, fun _ => rfl⟩
  · simp only [check_authorization]
    by_cases he : a = ""
    · rw [if_pos he]; exact Or.inr rfl
    · rw [if_neg he]
      by_cases hk : derivedKey a ≠ API_KEY
      · rw [if_pos hk]; exact Or.inr rfl
      · rw [if_neg hk]; exact Or.inl rfl

/-- Witness for C9 (amended): the standard `"Bearer " + key` header is
accepted. -/
theorem c9_auth_amended_witness :
    check_authorization (some "Bearer k") "k" = .ok true :=
  (c9_auth_amended "Bearer k" "k").2.1.mpr (by decide)

/-! ## C8 — upstream non-200 status -/

/-- **C8** is false as stated: on upstream status 503 the streaming output
is the initial role chunk plus a *single* chunk that both carries the error
message and is stop-marked; the error-content fragment is not followed by a
separate stop-marked terminal chunk (there is no third chunk at all). -/
theorem c8_counterexample :
    (stream_response "deepseek-v3" 503 []).1 = [roleChunk, streamErrChunk 503] ∧
    (streamErrChunk 503).content = some "错误：无法获取响应，状态码: 503" ∧
    (streamErrChunk 503).finish_reason = some "stop" ∧
    roleChunk.content = none ∧
    ¬ (∃ c₁ c₂ : Chunk,
        (stream_response "deepseek-v3" 503 []).1 = [roleChunk, c₁, c₂]) := by
  refine ⟨rfl, rfl, rfl, rfl, ?_⟩
  rintro ⟨c₁, c₂, h⟩
  have h' : ([roleChunk, streamErrChunk 503] : List Chunk) = [roleChunk, c₁, c₂] := h
  simp at h'

/-- **C8** (amended): for every non-200 upstream status, the streaming-mode
output is the initial role chunk followed by exactly one chunk that both
contains a human-readable error message and carries the terminal stop
marker; no further chunk follows and no upstream event is read (the output
does not depend on the event sequence).  In non-streaming mode the same
condition surfaces as an HTTP 500 error with no partial body. -/
theorem c8_upstream_error_amended (model : String) (status : Nat)
    (evs : List UpstreamEvent) (h : status ≠ 200) :
    stream_response model status evs = ([roleChunk, streamErrChunk status], none) ∧
    (streamErrChunk status).content
      = some ("错误：无法获取响应，状态码: " ++ toString status) ∧
    (streamErrChunk status).finish_reason = some "stop" ∧
    chat_completions_content model status evs
      = .error (NSErr.httpException 500 ("无法从 API 获取响应，状态码: " ++ toString status)) := by
  refine ⟨?_, rfl, rfl, ?_⟩
  · simp [stream_response, h]
  · simp [chat_completions_content, h]

/-- Witness for C8 (amended) at status 503 with a non-empty event list. -/
theorem c8_upstream_error_amended_witness :
    stream_response "deepseek-r1" 503 [⟨some "text", some "hello"⟩]
      = ([roleChunk, streamErrChunk 503], none) :=
  (c8_upstream_error_amended "deepseek-r1" 503 [⟨some "text", some "hello"⟩]
    (by decide)).1

/-! ## C10 — events with an unrecognized content type -/

/-- **C10**: an event with non-empty content whose `content_type` is none of
`"thinking"`, `"text"`, `"card"` produces no fragment and leaves the state
(thinking flag and pending card) unchanged, in both consumers.  The
accumulated fragment list is unchanged because the step contributes the
empty fragment list. -/
theorem c10_unknown_content_type_ignored (is_r1 : Bool) (st : SegState)
    (ev : UpstreamEvent)
    (h0 : ev.content.getD "" ≠ "")
    (h1 : ev.content_type ≠ some "thinking")
    (h2 : ev.content_type ≠ some "text")
    (h3 : ev.content_type ≠ some "card") :
    streamStep is_r1 st ev = .ok (st, []) ∧ nsStep is_r1 st ev = .ok (st, []) := by
  unfold streamStep nsStep
  simp [h0, h1, h2, h3]

/-- Witness for C10: a `content_type = "other"` event. -/
theorem c10_unknown_content_type_ignored_witness :
    streamStep true ⟨true, some "pending"⟩ ⟨some "other", some "x"⟩
      = .ok (⟨true, some "pending"⟩, []) :=
  (c10_unknown_content_type_ignored true ⟨true, some "pending"⟩
    ⟨some "other", some "x"⟩ (by decide) (by decide) (by decide) (by decide)).1

/-! ## C5 — `<details>` stripping happens after the emptiness check -/

/-- **C5** is false as stated: an event whose content consists solely of a
`<details>...</details>` span is *not* ignored.  The emptiness check runs
before the stripping, so a `thinking` event with such content still opens a
think interval and emits the `"<think>"` marker plus an empty content
fragment. -/
theorem c5_counterexample :
    streamStep false initSeg ⟨some "thinking", some "<details>x</details>"⟩
      = .ok (⟨true, none⟩, [TFrag.openThink, TFrag.thinkText ""]) ∧
    (⟨true, none⟩ : SegState) ≠ initSeg ∧
    ([TFrag.openThink, TFrag.thinkText ""] : List TFrag) ≠ [] := by
  refine ⟨rfl, by decide, by decide⟩

/-- **C5** (amended): events whose content is absent or empty *before*
stripping are ignored entirely (no fragment, no transition); for non-empty
content the `<details>` spans are stripped before the `content_type` is
inspected, so the outcome depends only on the stripped content; an event
whose content is solely a details span is still dispatched, with empty
remaining text. -/
theorem c5_details_strip_amended (is_r1 : Bool) (st : SegState) :
    (∀ ev : UpstreamEvent, ev.content = none ∨ ev.content = some "" →
        streamStep is_r1 st ev = .ok (st, []) ∧ nsStep is_r1 st ev = .ok (st, [])) ∧
    (∀ ct : Option String, ∀ s₁ s₂ : String, s₁ ≠ "" → s₂ ≠ "" →
        stripDetails s₁ = stripDetails s₂ →
        streamStep is_r1 st ⟨ct, some s₁⟩ = streamStep is_r1 st ⟨ct, some s₂⟩ ∧
        nsStep is_r1 st ⟨ct, some s₁⟩ = nsStep is_r1 st ⟨ct, some s₂⟩) ∧
    streamStep false initSeg ⟨some "thinking", some "<details>x</details>"⟩
      = .ok ({ thinking := true, card_content := none }, [TFrag.openThink, TFrag.thinkText ""]) := by
  refine ⟨?_, ?_, rfl⟩
  · rintro ev (h | h) <;> (unfold streamStep nsStep; simp [h])
  · intro ct s₁ s₂ h₁ h₂ hs
    unfold streamStep nsStep
    dsimp only
    simp only [Option.getD_some]
    refine ⟨?_, ?_⟩ <;> rw [if_neg h₁, if_neg h₂, hs]

/-- Witness for C5 (amended): a `text` event behaves identically to one with
its `<details>` span already removed. -/
theorem c5_details_strip_amended_witness :
    streamStep false initSeg ⟨some "text", some "<details>a</details>b"⟩
      = streamStep false initSeg ⟨some "text", some "b"⟩ :=
  ((c5_details_strip_amended false initSeg).2.1 (some "text")
    "<details>a</details>b" "b" (by decide) (by decide) (by decide)).1

/-! ## C4 — card deferral is keyed on the r1 models, not on "deep" -/

theorem header_row_ne_empty (x : String) :
    "\n\n| 序号 | 网站URL | 来源 |\n| ---- | ---- | ---- |" ++ "\n" ++ x ≠ "" := by
  intro h
  have hl := congrArg String.length h
  rw [String.length_append, String.length_append] at hl
  rw [show ("\n\n| 序号 | 网站URL | 来源 |\n| ---- | ---- | ---- |" : String).length = 44
        from rfl,
      show ("\n" : String).length = 1 from rfl,
      show ("" : String).length = 0 from rfl] at hl
  omega

theorem except_bind_ok {e a b : Type} (x : Except e a) (f : a → Except e b)
    (w : b) (h : x >>= f = .ok w) : ∃ y, x = .ok y ∧ f y = .ok w := by
  cases x with
  | error err => exact absurd h (by simp [Bind.bind, Except.bind])
  | ok y => exact ⟨y, rfl, by simpa [Bind.bind, Except.bind] using h⟩

theorem except_pure_eq_ok {e a : Type} (x w : a)
    (h : (pure x : Except e a) = .ok w) : x = w := by
  simpa [Pure.pure, Except.pure] using h

/-- Every string `parse_card_content`'s `try:` body can return is
non-empty. -/
theorem parseCardBody_ok_ne (s v : String) (h : parseCardBody s = .ok v) :
    v ≠ "" := by
  unfold parseCardBody at h
  rcases hj : json_loads s with _ | cd <;> rw [hj] at h <;> dsimp only at h
  · exact absurd h (by simp [Bind.bind, Except.bind])
  obtain ⟨cd2, -, h⟩ := except_bind_ok _ _ _ h
  obtain ⟨ct, -, h⟩ := except_bind_ok _ _ _ h
  by_cases hdb : jsonEqStr ct "DB-CARD-2" = true
  · rw [if_pos hdb] at h
    obtain ⟨ci, -, h⟩ := except_bind_ok _ _ _ h
    obtain ⟨its, -, h⟩ := except_bind_ok _ _ _ h
    obtain ⟨il, -, h⟩ := except_bind_ok _ _ _ h
    obtain ⟨refs, -, h⟩ := except_bind_ok _ _ _ h
    by_cases hne : refs ≠ []
    · rw [if_pos hne] at h
      rw [← except_pure_eq_ok _ _ h]
      exact header_row_ne_empty _
    · rw [if_neg hne] at h
      rw [← except_pure_eq_ok _ _ h]
      decide
  · rw [if_neg hdb] at h
    rw [← except_pure_eq_ok _ _ h]
    decide

theorem parse_card_content_ok_ne (s r : String)
    (h : parse_card_content s = .ok r) : r ≠ "" := by
  unfold parse_card_content at h
  rcases hb : parseCardBody s with e | v
  · rw [hb] at h
    cases e
    · injection h with h'
      subst h'
      decide
    · exact absurd h (by simp)
    · exact absurd h (by simp)
  · rw [hb] at h
    injection h with h'
    subst h'
    exact parseCardBody_ok_ne s _ hb

/-- **C4** is false as stated: `"doubao-thinking"` carries the `"deep"`
capability in the catalog, yet a card event for it is rendered and emitted
*inline* (no pending state is set), because the code keys the deferral on
`request.model in ["deepseek-r1", "deepseek-r1-search"]` only. -/
theorem c4_counterexample :
    hasDeepAction "doubao-thinking" = true ∧
    is_r1_model "doubao-thinking" = false ∧
    streamStep (is_r1_model "doubao-thinking") initSeg
        ⟨some "card", some "\x7b\x7d"⟩
      = .ok (initSeg, [TFrag.cardInline ("不支持的 card 类型" ++ "\n\n")]) ∧
    nsStep (is_r1_model "doubao-thinking") initSeg ⟨some "card", some "\x7b\x7d"⟩
      = .ok (initSeg, ["不支持的 card 类型" ++ "\n\n"]) := by
  refine ⟨rfl, rfl, rfl, rfl⟩

/-- **C4** (amended): the deferral set is exactly `deepseek-r1` and
`deepseek-r1-search`.  For those models a card event stores the rendered
result as pending (overwriting any previous pending value) and emits
nothing; the pending card is flushed exactly once after the main loop, with
two newlines appended.  For every other model — including the other
`"deep"`-capability models — the rendered card plus two newlines is emitted
immediately inline with no state transition.  (Rendered card strings are
never empty, so the flush guard `if card_content:` fires for every stored
card.) -/
theorem c4_card_deferral_amended (m : String) (st : SegState) (s parsed : String)
    (hs : s ≠ "") (hp : parse_card_content (stripDetails s) = .ok parsed) :
    (is_r1_model m = true ↔ (m = "deepseek-r1" ∨ m = "deepseek-r1-search")) ∧
    (is_r1_model m = true →
       streamStep (is_r1_model m) st ⟨some "card", some s⟩
         = .ok ({ st with card_content := some parsed }, [])) ∧
    (is_r1_model m = false →
       streamStep (is_r1_model m) st ⟨some "card", some s⟩
         = .ok (st, [TFrag.cardInline (parsed ++ "\n\n")])) ∧
    parsed ≠ "" ∧
    (∀ c : String, c ≠ "" →
       streamFinalize true { st with card_content := some c }
         = (if st.thinking then [TFrag.closeThink] else [])
           ++ [TFrag.cardFlush (c ++ "\n\n"), TFrag.stopMark]) := by
  have hstep : ∀ b : Bool,
      streamStep b st ⟨some "card", some s⟩
        = if b then .ok ({ st with card_content := some parsed }, [])
          else .ok (st, [TFrag.cardInline (parsed ++ "\n\n")]) := by
    intro b
    unfold streamStep
    dsimp only
    simp only [Option.getD_some]
    rw [if_neg hs]
    simp only [show (some "card" : Option String) ≠ some "thinking" from by decide,
      show (some "card" : Option String) ≠ some "text" from by decide,
      if_neg, if_pos rfl]
    rw [hp]
    cases b <;> simp
  refine ⟨?_, ?_, ?_, parse_card_content_ok_ne _ _ hp, ?_⟩
  · unfold is_r1_model
    simp [List.contains, or_comm]
  · intro h1; rw [hstep, h1]; simp
  · intro h1; rw [hstep, h1]; simp
  · intro c hc
    unfold streamFinalize
    simp [cardTruthy, hc]

/-- Witness for C4 (amended): `deepseek-r1` defers an unparseable-shape card
into the pending slot, overwriting a previously pending value. -/
theorem c4_card_deferral_amended_witness :
    streamStep (is_r1_model "deepseek-r1") ⟨false, some "old"⟩
        ⟨some "card", some "\x7b\x7d"⟩
      = .ok (⟨false, some "不支持的 card 类型"⟩, []) :=
  (c4_card_deferral_amended "deepseek-r1" ⟨false, some "old"⟩ "\x7b\x7d"
    "不支持的 card 类型" (by decide) (by decide)).2.1 rfl

/-! ## C7 — the message flattener -/

theorem concat_foldl (messages : List Message) : ∀ acc : List String,
    messages.foldl
      (fun acc msg =>
        let content := pyStrip (stripThink msg.content)
        if content ≠ "" then acc ++ [msg.role.capitalize ++ ": " ++ content] else acc)
      acc
      = acc ++ messages.filterMap flattenLine := by
  induction messages with
  | nil => intro acc; simp
  | cons m rest ih =>
    intro acc
    rw [List.foldl_cons]
    by_cases hc : pyStrip (stripThink m.content) = ""
    · dsimp only
      rw [if_neg (not_not_intro hc), ih, List.filterMap_cons,
        show flattenLine m = none from by unfold flattenLine; dsimp only; rw [if_pos hc]]
    · dsimp only
      rw [if_pos hc, ih, List.filterMap_cons,
        show flattenLine m
            = some (m.role.capitalize ++ ": " ++ pyStrip (stripThink m.content)) from by
          unfold flattenLine; dsimp only; rw [if_neg hc]]
      simp

/-- **C7**: the flattener processes messages in order; each message has its
non-greedy `<think>...</think>` spans removed and is trimmed; emptied
messages are skipped entirely; the survivors produce
`"<Role-capitalized>: <content>"` lines joined with `"\n"`. -/
theorem c7_flattener (messages : List Message) :
    concatenate_messages messages
      = String.intercalate "\n" (messages.filterMap flattenLine) := by
  unfold concatenate_messages
  rw [concat_foldl messages []]
  simp

/-! ## C2 — think-marker balance and the terminal stop marker -/

/-- The synthetic think markers of a fragment: `true` for an open marker,
`false` for a close marker. -/
def markOf : TFrag → Option Bool
  | .openThink => some true
  | .closeThink => some false
  | _ => none

def marksOf (fs : List TFrag) : List Bool := fs.filterMap markOf

/-- Validity automaton for marker sequences: starting from openness `b`,
an open marker is legal only when closed and a close marker only when open;
the result is the final openness (`none` when the alternation is violated).
`altAcc false ms = some false` says the sequence strictly alternates
open/close starting with open and ends closed. -/
def altAcc : Bool → List Bool → Option Bool
  | b, [] => some b
  | false, true :: r => altAcc true r
  | false, false :: _ => none
  | true, false :: r => altAcc false r
  | true, true :: _ => none

theorem altAcc_append (l₁ l₂ : List Bool) : ∀ b : Bool,
    altAcc b (l₁ ++ l₂)
      = match altAcc b l₁ with
        | some b2 => altAcc b2 l₂
        | none => none := by
  induction l₁ with
  | nil => intro b; simp [altAcc]
  | cons x r ih => intro b; cases b <;> cases x <;> simp [altAcc, ih]

theorem altAcc_count (l : List Bool) : ∀ b b2 : Bool, altAcc b l = some b2 →
    l.count true + (if b then 1 else 0) = l.count false + (if b2 then 1 else 0) := by
  induction l with
  | nil =>
    intro b b2 h
    simp only [altAcc] at h
    injection h with h'
    subst h'
    rfl
  | cons x r ih =>
    intro b b2 h
    cases b2 <;> cases b <;> cases x <;> simp only [altAcc] at h <;>
      first
        | exact absurd h (by simp)
        | (have h2 := ih _ _ h
           simp [List.count_cons] at h2 ⊢
           omega)

theorem count_marks (fs : List TFrag) :
    (marksOf fs).count true = fs.count TFrag.openThink ∧
    (marksOf fs).count false = fs.count TFrag.closeThink := by
  induction fs with
  | nil => simp [marksOf]
  | cons f r ih =>
    obtain ⟨ih1, ih2⟩ := ih
    rw [marksOf] at ih1 ih2
    cases f <;>
      simp [marksOf, markOf, List.count_cons, List.filterMap_cons, ih1, ih2]

/-- One event step keeps the marker alternation consistent with the
`thinking` flag and never emits the stop marker. -/
theorem streamStep_marks (is_r1 : Bool) (st : SegState) (ev : UpstreamEvent)
    (st' : SegState) (fs : List TFrag)
    (h : streamStep is_r1 st ev = .ok (st', fs)) :
    altAcc st.thinking (marksOf fs) = some st'.thinking ∧ TFrag.stopMark ∉ fs := by
  unfold streamStep at h
  by_cases hc : ev.content.getD "" = ""
  · rw [if_pos hc] at h
    simp only [Except.ok.injEq, Prod.mk.injEq] at h
    obtain ⟨rfl, rfl⟩ := h
    simp [marksOf, altAcc]
  · rw [if_neg hc] at h
    by_cases h1 : ev.content_type = some "thinking"
    · rw [if_pos h1] at h
      by_cases ht : st.thinking
      · rw [if_neg (by simp [ht])] at h
        simp only [Except.ok.injEq, Prod.mk.injEq] at h
        obtain ⟨rfl, rfl⟩ := h
        simp [marksOf, markOf, altAcc, ht]
      · rw [if_pos (by simp [ht])] at h
        simp only [Except.ok.injEq, Prod.mk.injEq] at h
        obtain ⟨rfl, rfl⟩ := h
        simp [marksOf, markOf, altAcc, show st.thinking = false from by simpa using ht]
    · rw [if_neg h1] at h
      by_cases h2 : ev.content_type = some "text"
      · rw [if_pos h2] at h
        by_cases ht : st.thinking
        · rw [if_pos ht] at h
          simp only [Except.ok.injEq, Prod.mk.injEq] at h
          obtain ⟨rfl, rfl⟩ := h
          simp [marksOf, markOf, altAcc, ht]
        · rw [if_neg ht] at h
          simp only [Except.ok.injEq, Prod.mk.injEq] at h
          obtain ⟨rfl, rfl⟩ := h
          simp [marksOf, markOf, altAcc, show st.thinking = false from by simpa using ht]
      · rw [if_neg h2] at h
        by_cases h3 : ev.content_type = some "card"
        · rw [if_pos h3] at h
          rcases hp : parse_card_content (stripDetails (ev.content.getD "")) with e | parsed
          · rw [hp] at h
            exact absurd h (by simp)
          · rw [hp] at h
            dsimp only at h
            by_cases hr : is_r1
            · rw [if_pos hr] at h
              simp only [Except.ok.injEq, Prod.mk.injEq] at h
              obtain ⟨rfl, rfl⟩ := h
              simp [marksOf, altAcc]
            · rw [if_neg hr] at h
              simp only [Except.ok.injEq, Prod.mk.injEq] at h
              obtain ⟨rfl, rfl⟩ := h
              simp [marksOf, markOf, altAcc]
        · rw [if_neg h3] at h
          simp only [Except.ok.injEq, Prod.mk.injEq] at h
          obtain ⟨rfl, rfl⟩ := h
          simp [marksOf, altAcc]

/-- The event loop keeps the alternation consistent and emits no stop
marker, as long as no exception aborts it. -/
theorem streamLoop_marks (is_r1 : Bool) : ∀ (evs : List UpstreamEvent) (st : SegState),
    (streamLoop is_r1 st evs).2.2 = none →
    altAcc st.thinking (marksOf (streamLoop is_r1 st evs).1)
        = some (streamLoop is_r1 st evs).2.1.thinking ∧
    TFrag.stopMark ∉ (streamLoop is_r1 st evs).1 := by
  intro evs
  induction evs with
  | nil =>
    intro st _
    simp [streamLoop, marksOf, altAcc]
  | cons ev rest ih =>
    intro st h
    rcases hs : streamStep is_r1 st ev with e | p
    · rw [streamLoop, hs] at h
      exact absurd h (by simp)
    · obtain ⟨st2, fs2⟩ := p
      rw [streamLoop, hs] at h ⊢
      dsimp only at h ⊢
      obtain ⟨h1, h2⟩ := streamStep_marks is_r1 st ev st2 fs2 hs
      obtain ⟨ih1, ih2⟩ := ih st2 h
      refine ⟨?_, ?_⟩
      · rw [marksOf, List.filterMap_append, altAcc_append]
        rw [show List.filterMap markOf fs2 = marksOf fs2 from rfl, h1]
        exact ih1
      · simp only [List.mem_append]
        rintro (hm | hm)
        · exact h2 hm
        · exact ih2 hm

/-- Finalization closes a dangling think interval and ends with exactly one
stop marker, which is last. -/
theorem streamFinalize_marks (is_r1 : Bool) (st : SegState) :
    altAcc st.thinking (marksOf (streamFinalize is_r1 st)) = some false ∧
    (streamFinalize is_r1 st).count TFrag.stopMark = 1 ∧
    ∃ l, streamFinalize is_r1 st = l ++ [TFrag.stopMark] := by
  cases ht : st.thinking <;>
    cases hf : is_r1 && cardTruthy st.card_content <;>
    simp only [streamFinalize, ht, hf, if_true, if_false, Bool.false_eq_true,
      List.nil_append, List.append_nil]
  · exact ⟨rfl, rfl, [], rfl⟩
  · exact ⟨rfl, rfl, [TFrag.cardFlush (st.card_content.getD "" ++ "\n\n")], rfl⟩
  · exact ⟨rfl, rfl, [TFrag.closeThink], rfl⟩
  · exact ⟨rfl, rfl, [TFrag.closeThink,
      TFrag.cardFlush (st.card_content.getD "" ++ "\n\n")], rfl⟩

/-- **C2** is false as stated: a card event whose payload is valid JSON but
not an object (here `"[]"`) aborts the streaming consumer with an uncaught
`AttributeError` before finalization, so the produced fragment sequence
contains no stop marker at all. -/
theorem c2_counterexample :
    segmenter_frags false [⟨some "card", some "[]"⟩]
      = ([], some PyErr.attributeError) ∧
    ([] : List TFrag).count TFrag.stopMark = 0 := by
  exact ⟨rfl, rfl⟩

/-- **C2** (amended): for every event sequence that does not abort the
consumer with an uncaught exception (i.e. every card payload renders without
raising), the fragment sequence has strictly alternating think markers
starting with an open marker and ending closed, equal numbers of open and
close markers, and exactly one stop marker, which is the last fragment. -/
theorem c2_think_balance_amended (is_r1 : Bool) (evs : List UpstreamEvent)
    (fs : List TFrag) (h : segmenter_frags is_r1 evs = (fs, none)) :
    altAcc false (marksOf fs) = some false ∧
    fs.count TFrag.openThink = fs.count TFrag.closeThink ∧
    fs.count TFrag.stopMark = 1 ∧
    fs.getLast? = some TFrag.stopMark := by
  unfold segmenter_frags at h
  dsimp only at h
  rcases he : (streamLoop is_r1 initSeg evs).2.2 with _ | e
  · rw [he] at h
    dsimp only at h
    simp only [Prod.mk.injEq] at h
    obtain ⟨rfl, -⟩ := h
    obtain ⟨l1, l2⟩ := streamLoop_marks is_r1 evs initSeg he
    obtain ⟨f1, f2, l3, hf3⟩ :=
      streamFinalize_marks is_r1 (streamLoop is_r1 initSeg evs).2.1
    have halt : altAcc false
        (marksOf ((streamLoop is_r1 initSeg evs).1
          ++ streamFinalize is_r1 (streamLoop is_r1 initSeg evs).2.1)) = some false := by
      rw [marksOf, List.filterMap_append, altAcc_append]
      rw [show ∀ l, List.filterMap markOf l = marksOf l from fun _ => rfl]
      rw [show initSeg.thinking = false from rfl] at l1
      rw [l1]
      exact f1
    refine ⟨halt, ?_, ?_, ?_⟩
    · have hcnt := altAcc_count _ false false halt
      simp only [if_neg (by decide : ¬False)] at hcnt
      have hc1 := count_marks ((streamLoop is_r1 initSeg evs).1
        ++ streamFinalize is_r1 (streamLoop is_r1 initSeg evs).2.1)
      omega
    · rw [List.count_append, List.count_eq_zero.mpr l2, f2]
    · rw [hf3, ← List.append_assoc]
      exact List.getLast?_concat _
  · rw [he] at h
    dsimp only at h
    simp only [Prod.mk.injEq] at h
    exact absurd h.2 (by simp)

/-! ## C1 — streaming and non-streaming produce the same text -/

theorem string_join_cons (s : String) (l : List String) :
    String.join (s :: l) = s ++ String.join l := by
  rw [String.join_eq, String.join_eq]
  cases s with
  | mk d => rfl

theorem string_join_append (l₁ l₂ : List String) :
    String.join (l₁ ++ l₂) = String.join l₁ ++ String.join l₂ := by
  induction l₁ with
  | nil =>
    rw [List.nil_append]
    cases String.join l₂ with
    | mk d => rfl
  | cons s r ih =>
    rw [List.cons_append, string_join_cons, string_join_cons, ih,
      String.append_assoc]

theorem str_append_empty (s : String) : s ++ "" = s := by
  cases s with
  | mk d => show String.mk (d ++ []) = String.mk d; rw [List.append_nil]

theorem str_empty_append (s : String) : "" ++ s = s := by
  cases s with
  | mk d => rfl

/-- The concatenation of all `delta.content` fragments of a chunk
sequence. -/
def chunksText (cs : List Chunk) : String :=
  String.join (cs.filterMap Chunk.content)

/-- Each event is handled identically by the two consumers: same state
change, same exception, and the accumulated strings are exactly the
rendered fragments. -/
theorem step_agree (is_r1 : Bool) (st : SegState) (ev : UpstreamEvent) :
    nsStep is_r1 st ev
      = (streamStep is_r1 st ev).map (fun p => (p.1, p.2.map fragText)) := by
  unfold nsStep streamStep
  dsimp only
  by_cases hc : ev.content.getD "" = ""
  · rw [if_pos hc, if_pos hc]
    rfl
  · rw [if_neg hc, if_neg hc]
    by_cases h1 : ev.content_type = some "thinking"
    · rw [if_pos h1, if_pos h1]
      by_cases ht : (!st.thinking) = true
      · rw [if_pos ht, if_pos ht]
        rfl
      · rw [if_neg ht, if_neg ht]
        rfl
    · rw [if_neg h1, if_neg h1]
      by_cases h2 : ev.content_type = some "text"
      · rw [if_pos h2, if_pos h2]
        by_cases ht : st.thinking
        · rw [if_pos ht, if_pos ht]
          rfl
        · rw [if_neg ht, if_neg ht]
          rfl
      · rw [if_neg h2, if_neg h2]
        by_cases h3 : ev.content_type = some "card"
        · rw [if_pos h3, if_pos h3]
          rcases hp : parse_card_content (stripDetails (ev.content.getD "")) with e | parsed
          · rfl
          · dsimp only
            by_cases hr : is_r1
            · rw [if_pos hr, if_pos hr]
              rfl
            · rw [if_neg hr, if_neg hr]
              rfl
        · rw [if_neg h3, if_neg h3]
          rfl

theorem loop_agree (is_r1 : Bool) : ∀ (evs : List UpstreamEvent) (st : SegState),
    nsLoop is_r1 st evs
      = ((streamLoop is_r1 st evs).1.map fragText, (streamLoop is_r1 st evs).2) := by
  intro evs
  induction evs with
  | nil => intro st; rfl
  | cons ev rest ih =>
    intro st
    simp only [nsLoop, streamLoop, step_agree]
    rcases hs : streamStep is_r1 st ev with e | p
    · simp [Except.map]
    · obtain ⟨st2, fs2⟩ := p
      simp [Except.map, ih st2, List.map_append]

theorem finalize_agree (is_r1 : Bool) (st : SegState) :
    (streamFinalize is_r1 st).map fragText = nsFinalize is_r1 st ++ [""] := by
  unfold streamFinalize nsFinalize
  cases ht : st.thinking <;> cases hf : is_r1 && cardTruthy st.card_content <;>
    simp [ht, hf, fragText]

/-- The content deltas of the rendered chunks are the fragment texts, except
that the stop chunk carries no content while its fragment text is empty —
so the joined strings coincide. -/
theorem join_chunks_frags (fs : List TFrag) :
    String.join ((fs.map fragChunk).filterMap Chunk.content)
      = String.join (fs.map fragText) := by
  induction fs with
  | nil => rfl
  | cons f r ih =>
    cases f <;>
      simp only [List.map_cons, List.filterMap_cons, fragChunk, fragText,
        contentChunk, stopChunk, string_join_cons, str_empty_append, ih]

/-- **C1**: whenever the non-streaming path completes with a final message
content `c` for an accepted (HTTP 200) upstream event sequence, the
streaming path for the same model and the same sequence completes as well,
and concatenating all its content fragments in order yields exactly `c`. -/
theorem c1_cross_mode_equivalence (model : String) (evs : List UpstreamEvent)
    (c : String) (h : chat_completions_content model 200 evs = .ok c) :
    (stream_response model 200 evs).2 = none ∧
    chunksText (stream_response model 200 evs).1 = c := by
  unfold chat_completions_content at h
  rw [if_neg (by decide)] at h
  dsimp only at h
  rw [loop_agree] at h
  dsimp only at h
  rcases he : (streamLoop (is_r1_model model) initSeg evs).2.2 with _ | e
  · rw [he] at h
    dsimp only at h
    injection h with h'
    unfold stream_response
    rw [if_neg (by decide)]
    dsimp only
    unfold segmenter_frags
    dsimp only
    rw [he]
    dsimp only
    refine ⟨rfl, ?_⟩
    unfold chunksText
    rw [show ∀ (cs : List Chunk), (roleChunk :: cs).filterMap Chunk.content
          = cs.filterMap Chunk.content from fun _ => rfl]
    rw [join_chunks_frags, List.map_append, string_join_append, finalize_agree,
      string_join_append, string_join_cons]
    rw [show String.join [] = "" from rfl, str_append_empty, str_append_empty]
    rw [← string_join_append]
    exact h'
  · rw [he] at h
    dsimp only at h
    exact absurd h (by simp)

/-- Witness for C1 on a thinking/text/card sequence for a non-r1 model. -/
theorem c1_cross_mode_equivalence_witness :
    (stream_response "deepseek-v3" 200
        [⟨some "thinking", some "a"⟩, ⟨some "text", some "b"⟩]).2 = none ∧
    chunksText (stream_response "deepseek-v3" 200
        [⟨some "thinking", some "a"⟩, ⟨some "text", some "b"⟩]).1
      = "<think>a</think>b" :=
  c1_cross_mode_equivalence "deepseek-v3"
    [⟨some "thinking", some "a"⟩, ⟨some "text", some "b"⟩]
    "<think>a</think>b" (by decide)

/-- Witness for C2 (amended) on a stream that ends while thinking: the
dangling think interval is closed during finalization and the stop marker is
last. -/
theorem c2_think_balance_amended_witness :
    altAcc false (marksOf [TFrag.openThink, TFrag.thinkText "a", TFrag.closeThink,
        TFrag.stopMark]) = some false ∧
    [TFrag.openThink, TFrag.thinkText "a", TFrag.closeThink,
        TFrag.stopMark].count TFrag.openThink
      = [TFrag.openThink, TFrag.thinkText "a", TFrag.closeThink,
        TFrag.stopMark].count TFrag.closeThink ∧
    [TFrag.openThink, TFrag.thinkText "a", TFrag.closeThink,
        TFrag.stopMark].count TFrag.stopMark = 1 ∧
    [TFrag.openThink, TFrag.thinkText "a", TFrag.closeThink,
        TFrag.stopMark].getLast? = some TFrag.stopMark :=
  c2_think_balance_amended false [⟨some "thinking", some "a"⟩]
    [TFrag.openThink, TFrag.thinkText "a", TFrag.closeThink, TFrag.stopMark]
    (by decide)

end Dangbei
